import Mathlib

/-!
Shallow embedding of trailbase's record layer: the JSON→SQL parameter
builder (`trailbase-core/src/records/json_to_sql.rs`), the query builders
(`trailbase-core/src/records/query_builder.rs`), the alter-table handler
(`trailbase-core/src/admin/table/alter_table.rs`) and the schema metadata
cache (`trailbase-core/src/schema_metadata.rs`).

Rust `f64` values are kept abstract: every definition is polymorphic over a
type `F` standing for `f64`, and operations produced by external crates
(float parsing, serde serialization, JSON-schema validation, file-upload
consumption) are supplied through an explicit environment record.  All other
data is modelled concretely: bytes are `Nat` (< 256 by construction of the
decoders), `i64` values are `Int` with explicit range checks mirroring the
Rust code's `try_into`/`as_i64` calls.
-/

namespace Trailbase

/-- Model of `ColumnDataType` from `trailbase-schema`: the declared SQL data type of a
column, as matched exhaustively by `json_string_to_value`. -/
inductive ColumnDataType where
  | Null
  | Any
  | Text
  | Blob
  | Integer
  | Real
  | Numeric
  | JSONB
  | JSON
  | Int
  | TinyInt
  | SmallInt
  | MediumInt
  | BigInt
  | UnignedBigInt
  | Int2
  | Int4
  | Int8
  | Character
  | Varchar
  | VaryingCharacter
  | NChar
  | NativeCharacter
  | NVarChar
  | Clob
  | Double
  | DoublePrecision
  | Float
  | Boolean
  | Decimal
  | Date
  | DateTime
deriving DecidableEq, Repr

/-- Rust `i64::MAX` = 2^63 - 1. -/
def i64Max : Int := 9223372036854775807

/-- Rust `i64::MIN` = -2^63. -/
def i64Min : Int := -9223372036854775808

/-- Rust `u64::MAX` = 2^64 - 1. -/
def u64Max : Int := 18446744073709551615

/-- Model of `serde_json::Number` (without `arbitrary_precision`): semantically either
an integer (stored as `u64` or `i64`, here one `Int` in
`[i64::MIN, u64::MAX]`) or an `f64`, kept abstract as `F`. -/
inductive JNumber (F : Type) where
  | intVal (i : Int)
  | floatVal (f : F)
deriving DecidableEq, Repr

/-- Model of `serde_json::Number::as_i64`: some for integers representable as `i64`,
none for larger `u64` integers and for floats. -/
def JNumber.as_i64 {F : Type} : JNumber F → Option Int
  | .intVal i => if i64Min ≤ i ∧ i ≤ i64Max then some i else none
  | .floatVal _ => none

/-- Model of `serde_json::Number::as_u64`: some for non-negative integers, none for
negative integers and floats. -/
def JNumber.as_u64 {F : Type} : JNumber F → Option Int
  | .intVal i => if 0 ≤ i ∧ i ≤ u64Max then some i else none
  | .floatVal _ => none

/-- Model of `serde_json::Value`: JSON objects are modelled as association lists,
keeping the iteration order `Params::from` sees. -/
inductive JValue (F : Type) where
  | null
  | bool (b : Bool)
  | num (n : JNumber F)
  | str (s : String)
  | arr (elems : List (JValue F))
  | obj (fields : List (String × JValue F))

/-- Model of `rusqlite`/`trailbase_sqlite::Value`: a SQLite value.  Blobs are byte
lists (`Nat` entries, < 256 by construction of the producing functions). -/
inductive Value (F : Type) where
  | Null
  | Integer (i : Int)
  | Real (r : F)
  | Text (s : String)
  | Blob (bytes : List Nat)
deriving DecidableEq, Repr

/-- Model of `base64::DecodeError` (payload irrelevant to the spec claims). -/
inductive DecodeError where
  | invalidByte
  | invalidLength
  | invalidLastSymbol
  | invalidPadding
deriving DecidableEq, Repr

/-- Model of `serde_json::Error` (payload irrelevant to the spec claims). -/
structure SerdeError where
  msg : String
deriving DecidableEq, Repr

/-- Model of `table_metadata::JsonSchemaError` (payload irrelevant). -/
structure JsonSchemaError where
  msg : String
deriving DecidableEq, Repr

/-- Model of `trailbase_sqlite::schema::SchemaError` (payload irrelevant). -/
structure SchemaError where
  msg : String
deriving DecidableEq, Repr

/-- Model of `object_store::Error` (payload irrelevant). -/
structure ObjectStoreError where
  msg : String
deriving DecidableEq, Repr

/-- Model of `ParamsError` from `json_to_sql.rs`: the closed error taxonomy of the
parameter builder. -/
inductive ParamsError where
  | NotAnObject
  | NotANumber
  | Column (msg : String)
  | UnexpectedType (got : String) (expected : String)
  | Decode (e : DecodeError)
  | NestedObject (msg : String)
  | NestedArray (msg : String)
  | InhomogenousArray (msg : String)
  | ParseInt
  | ParseFloat
  | JsonValidation (e : JsonSchemaError)
  | JsonSerialization (e : SerdeError)
  | Schema (e : SchemaError)
  | Storage (e : ObjectStoreError)
deriving DecidableEq, Repr

/-- Rust `i64::try_from(_).ok()` followed by `u8::try_from`: in
`try_json_array_to_blob` the `int.try_into()` call converts an `i64` to `u8`,
succeeding exactly on 0..=255. -/
def tryIntoU8 (i : Int) : Option Nat :=
  if 0 ≤ i ∧ i ≤ 255 then some i.toNat else none

/-- Loop body of `try_json_array_to_blob`: `byte_array` is the accumulator
the Rust loop pushes into. -/
def try_json_array_to_blob_go {F : Type} (byte_array : List Nat) :
    List (JValue F) → Except ParamsError (Value F)
  | [] => .ok (.Blob byte_array)
  | el :: rest =>
    match el with
    | .num num =>
      match num.as_i64 with
      | none => .error (.UnexpectedType "NonByteNumber" "Number type")
      | some int =>
        match tryIntoU8 int with
        | none => .error (.UnexpectedType "NonByteNumber" "Out-of-range int")
        | some byte => try_json_array_to_blob_go (byte_array ++ [byte]) rest
    | _ => .error (.InhomogenousArray "Expected number")

/-- Model of `try_json_array_to_blob` from `json_to_sql.rs`: coerces a JSON array to a
SQLite blob, requiring every element to be an integer 0..=255. -/
def try_json_array_to_blob {F : Type} (arr : List (JValue F)) :
    Except ParamsError (Value F) :=
  try_json_array_to_blob_go [] arr

/-- Spec-side reading of one blob-array element (from the spec's words: "each
element must be an integer 0–255"): `some` with the byte exactly when the
element is an integer in 0..=255. -/
def specByte {F : Type} : JValue F → Option Nat
  | .num (.intVal i) => if 0 ≤ i ∧ i ≤ 255 then some i.toNat else none
  | _ => none

/-- Spec-side reading of a whole blob array: the byte list, when every
element is an integer 0..=255. -/
def specBlobBytes {F : Type} : List (JValue F) → Option (List Nat)
  | [] => some []
  | el :: rest =>
    match specByte el, specBlobBytes rest with
    | some b, some bs => some (b :: bs)
    | _, _ => none

/-- UTF-8 bytes of a string, as `Nat`s (Rust `String::into_bytes`). -/
def utf8Bytes (s : String) : List Nat :=
  s.toUTF8.toList.map (fun b => b.toNat)

/-- Rust `str::parse::<i64>`: optional sign, one or more ASCII digits, value
within the `i64` range; anything else is a `ParseIntError`. -/
def parseI64 (s : String) : Option Int :=
  match s.data with
  | [] => none
  | c :: rest =>
    let signed : Bool × List Char :=
      if c = '-' then (true, rest)
      else if c = '+' then (false, rest)
      else (false, c :: rest)
    match signed with
    | (neg, digits) =>
      if digits.isEmpty then none
      else if digits.all (fun d => d.isDigit) then
        let n : Nat := digits.foldl (fun acc d => acc * 10 + (d.toNat - 48)) 0
        let v : Int := if neg then -(n : Int) else (n : Int)
        if i64Min ≤ v ∧ v ≤ i64Max then some v else none
      else none

/-- Value of one URL-safe base64 symbol (`A-Z a-z 0-9 - _`). -/
def b64Val (c : Char) : Option Nat :=
  if 'A' ≤ c ∧ c ≤ 'Z' then some (c.toNat - 65)
  else if 'a' ≤ c ∧ c ≤ 'z' then some (c.toNat - 97 + 26)
  else if '0' ≤ c ∧ c ≤ '9' then some (c.toNat - 48 + 52)
  else if c = '-' then some 62
  else if c = '_' then some 63
  else none

/-- Chunked decoder behind `BASE64_URL_SAFE.decode`: canonical padding is
required (`=`/`==` only in the final 4-symbol group), lengths that are not a
multiple of four are rejected, and non-zero trailing bits in the final
symbol are rejected (the crate's default `decode_allow_trailing_bits =
false`). -/
def b64DecodeChunks : List Char → Except DecodeError (List Nat)
  | [] => .ok []
  | c0 :: c1 :: c2 :: c3 :: rest =>
    match b64Val c0, b64Val c1 with
    | some v0, some v1 =>
      if c2 = '=' then
        if c3 = '=' ∧ rest.isEmpty then
          if v1 % 16 = 0 then .ok [v0 * 4 + v1 / 16]
          else .error .invalidLastSymbol
        else .error .invalidByte
      else
        match b64Val c2 with
        | some v2 =>
          if c3 = '=' then
            if rest.isEmpty then
              if v2 % 4 = 0 then
                .ok [v0 * 4 + v1 / 16, (v1 % 16) * 16 + v2 / 4]
              else .error .invalidLastSymbol
            else .error .invalidByte
          else
            match b64Val c3 with
            | some v3 =>
              match b64DecodeChunks rest with
              | .ok tail =>
                .ok ([v0 * 4 + v1 / 16, (v1 % 16) * 16 + v2 / 4,
                      (v2 % 4) * 64 + v3] ++ tail)
              | .error e => .error e
            | none => .error .invalidByte
        | none => .error .invalidByte
    | _, _ => .error .invalidByte
  | _ => .error .invalidLength

/-- Model of `BASE64_URL_SAFE.decode` from the `base64` crate. -/
def b64UrlDecode (s : String) : Except DecodeError (List Nat) :=
  b64DecodeChunks s.data

/-- Value of one hex digit (both cases), as accepted by the `uuid` crate. -/
def hexVal (c : Char) : Option Nat :=
  if '0' ≤ c ∧ c ≤ '9' then some (c.toNat - 48)
  else if 'a' ≤ c ∧ c ≤ 'f' then some (c.toNat - 97 + 10)
  else if 'A' ≤ c ∧ c ≤ 'F' then some (c.toNat - 65 + 10)
  else none

/-- Hex digit pairs to bytes. -/
def hexPairs : List Char → Option (List Nat)
  | [] => some []
  | h :: l :: rest =>
    match hexVal h, hexVal l, hexPairs rest with
    | some hv, some lv, some tail => some ((hv * 16 + lv) :: tail)
    | _, _, _ => none
  | _ => none

/-- Model of `uuid::Uuid::parse_str` restricted to 36-byte inputs (the only length at
which `json_string_to_value` calls it): exactly the hyphenated 8-4-4-4-12
form parses, yielding the 16 bytes. -/
def uuidParse36 (s : String) : Option (List Nat) :=
  match s.data.splitOn '-' with
  | [g1, g2, g3, g4, g5] =>
    if g1.length = 8 ∧ g2.length = 4 ∧ g3.length = 4 ∧ g4.length = 4 ∧
        g5.length = 12 then
      hexPairs (g1 ++ g2 ++ g3 ++ g4 ++ g5)
    else none
  | _ => none

/-- Model of `json_string_to_value` from `json_to_sql.rs`: type-directed conversion of
a JSON string into a SQL value.  `pf` is Rust's `str::parse::<f64>` (floats
are abstract). -/
def json_string_to_value {F : Type} (pf : String → Option F)
    (data_type : ColumnDataType) (value : String) :
    Except ParamsError (Value F) :=
  let parseIntV : Except ParamsError (Value F) :=
    match parseI64 value with
    | some i => .ok (.Integer i)
    | none => .error .ParseInt
  let parseRealV : Except ParamsError (Value F) :=
    match pf value with
    | some f => .ok (.Real f)
    | none => .error .ParseFloat
  match data_type with
  | .Null => .ok .Null
  | .Any => .ok (.Text value)
  | .Text => .ok (.Text value)
  | .Blob =>
    -- Special handling for text encoded UUIDs, guessed by (byte) length 36;
    -- on parse failure fall back to URL-safe base64.
    if value.utf8ByteSize = 36 then
      match uuidParse36 value with
      | some bytes => .ok (.Blob bytes)
      | none =>
        match b64UrlDecode value with
        | .ok bytes => .ok (.Blob bytes)
        | .error e => .error (.Decode e)
    else
      match b64UrlDecode value with
      | .ok bytes => .ok (.Blob bytes)
      | .error e => .error (.Decode e)
  | .Integer => parseIntV
  | .Real => parseRealV
  | .Numeric => parseIntV
  | .JSONB => .ok (.Blob (utf8Bytes value))
  | .JSON => .ok (.Text value)
  | .Int => parseIntV
  | .TinyInt => parseIntV
  | .SmallInt => parseIntV
  | .MediumInt => parseIntV
  | .BigInt => parseIntV
  | .UnignedBigInt => parseIntV
  | .Int2 => parseIntV
  | .Int4 => parseIntV
  | .Int8 => parseIntV
  | .Character => .ok (.Text value)
  | .Varchar => .ok (.Text value)
  | .VaryingCharacter => .ok (.Text value)
  | .NChar => .ok (.Text value)
  | .NativeCharacter => .ok (.Text value)
  | .NVarChar => .ok (.Text value)
  | .Clob => .ok (.Text value)
  | .Double => parseRealV
  | .DoublePrecision => parseRealV
  | .Float => parseRealV
  | .Boolean => parseIntV
  | .Decimal => parseIntV
  | .Date => parseIntV
  | .DateTime => parseIntV

/-- Model of `simple_json_value_to_param` from `json_to_sql.rs`: flat conversion of a
scalar (or byte-array) JSON value into a SQL value for a column of the given
data type. -/
def simple_json_value_to_param {F : Type} (pf : String → Option F)
    (col_type : ColumnDataType) (value : JValue F) :
    Except ParamsError (Value F) :=
  match value with
  | .obj _ => .error (.UnexpectedType "Object" "Trivial type")
  | .arr arr =>
    -- Convert Array<number> to Blob; other column types reject arrays.
    if col_type ≠ ColumnDataType.Blob then
      .error (.UnexpectedType "Array" "Trivial type")
    else
      try_json_array_to_blob arr
  | .null => .ok .Null
  | .bool b => .ok (.Integer (if b then 1 else 0))
  | .str s => json_string_to_value pf col_type s
  | .num number =>
    match number.as_i64 with
    | some n => .ok (.Integer n)
    | none =>
      match number.as_u64 with
      | some n => .ok (.Integer (n - 2 ^ 64))  -- `n as i64` wraps
      | none =>
        match number with
        | .floatVal f => .ok (.Real f)  -- `as_f64`
        | .intVal _ => .error .NotANumber

/-- Model of `ColumnOption` from `trailbase-schema` (the variants the record layer
matches on). -/
inductive ColumnOption where
  | Null
  | NotNull
  | Default (expr : String)
  | Unique (is_primary : Bool)
  | Check (expr : String)
  | ForeignKey (foreign_table : String) (referred_columns : List String)
deriving DecidableEq, Repr

/-- Model of `Column` from `trailbase-schema`: name, declared data type, options. -/
structure Column where
  name : String
  data_type : ColumnDataType
  options : List ColumnOption
deriving DecidableEq, Repr

/-- Model of `JsonColumnMetadata`: how a text column is schema-validated — by a named
registered schema or by an inline schema (payload irrelevant here). -/
inductive JsonColumnMetadata where
  | SchemaName (name : String)
  | Pattern (schema : String)
deriving DecidableEq, Repr

/-- Model of `ColumnMetadata`: per-column derived metadata; only the `json` field is
consulted by the parameter builder. -/
structure ColumnMetadata where
  json : Option JsonColumnMetadata
deriving DecidableEq, Repr

/-- Model of `QualifiedName` from `trailbase-schema`: table name with optional
database segment. -/
structure QualifiedName where
  name : String
  database_schema : Option String
deriving DecidableEq, Repr

/-- Model of `Table`: the parsed CREATE TABLE shape (fields the claims touch). -/
structure Table where
  name : QualifiedName
  columns : List Column
deriving DecidableEq, Repr

/-- Model of `TableMetadata`: a table plus derived metadata — the per-column JSON
metadata (parallel to `schema.columns`) and the index of the record API's
primary-key column. -/
structure TableMetadata where
  schema : Table
  colMeta : List ColumnMetadata
  record_pk_column : Option Nat
deriving DecidableEq, Repr

/-- Model of `TableMetadata::name`. -/
def TableMetadata.name (md : TableMetadata) : String :=
  md.schema.name.name

/-- Model of `TableMetadata::column_by_name`: the column (and its metadata) with the
given name.  Column names are unique within a table, so first-match lookup
models the source's name→index map. -/
def TableMetadata.column_by_name (md : TableMetadata) (field_name : String) :
    Option (Column × ColumnMetadata) :=
  (md.schema.columns.zip md.colMeta).find? (fun p => p.1.name = field_name)

/-- Model of `FileUpload` from `trailbase_sqlite::schema`: the stored descriptor of an
externally persisted file; only its object-store `path` matters here. -/
structure FileUpload where
  path : String
deriving DecidableEq, Repr

/-- Model of `FileUploadInput`: a file payload as it arrives in a request (JSON body
field or multipart part). -/
structure FileUploadInput where
  name : Option String
  filename : Option String
  content_type : Option String
  data : List Nat
deriving DecidableEq, Repr

/-- Model of `FileMetadataContents = Vec<(FileUpload, Vec<u8>)>`. -/
def FileMetadataContents := List (FileUpload × List Nat)

/-- Operations delegated to external crates (serde_json, the JSON-schema
validator, `FileUploadInput::consume`) and Rust float parsing.  The claims
hold for every such environment. -/
structure Env (F : Type) where
  parseF64 : String → Option F
  validate : JsonColumnMetadata → JValue F → Except JsonSchemaError Unit
  jsonToString : JValue F → String
  fileUploadToString : FileUpload → Except SerdeError String
  fileUploadsToString : List FileUpload → Except SerdeError String
  parseFileUploadInput : JValue F → Except SerdeError FileUploadInput
  parseFileUploadInputs : JValue F → Except SerdeError (List FileUploadInput)
  consumeFile : FileUploadInput →
    Except SchemaError (Option String × FileUpload × List Nat)

/-- Model of `Params` from `json_to_sql.rs`: ordered named SQL parameters derived from
a JSON row, plus extracted file contents. -/
structure Params (F : Type) where
  table_name : String
  named_params : List (String × Value F)
  col_names : List String
  files : List (FileUpload × List Nat)
  file_col_names : List String

/-- Model of `Params::prefix_colon`. -/
def prefix_colon (s : String) : String := ":" ++ s

/-- Model of `Params::push_param`: appends the `:`-prefixed placeholder with its value
and the bare column name, keeping both lists aligned. -/
def Params.push_param {F : Type} (p : Params F) (col : String) (value : Value F) :
    Params F :=
  { p with
    named_params := p.named_params ++ [(prefix_colon col, value)],
    col_names := p.col_names ++ [col] }

/-- Consume the files of a `std.FileUploads` JSON array
(`file.consume()` per element, collecting metadata and contents). -/
def consumeAll {F : Type} (env : Env F) :
    List FileUploadInput → Except ParamsError (List (FileUpload × List Nat))
  | [] => .ok []
  | f :: rest =>
    match env.consumeFile f with
    | .error e => .error (.Schema e)
    | .ok (_col_name, metadata, content) =>
      match consumeAll env rest with
      | .ok tail => .ok ((metadata, content) :: tail)
      | .error e => .error e

/-- Model of `extract_params_and_files_from_json` from `json_to_sql.rs`: converts one
JSON value for one matched column into a SQL value, extracting file payloads
for `std.FileUpload`/`std.FileUploads` columns. -/
def extract_params_and_files_from_json {F : Type} (env : Env F)
    (col : Column) (col_meta : ColumnMetadata) (value : JValue F) :
    Except ParamsError (Value F × Option (List (FileUpload × List Nat))) :=
  match value with
  | .obj _ =>
    -- Only text columns are allowed to store nested JSON as text.
    if col.data_type ≠ ColumnDataType.Text then
      .error (.NestedObject "Column data mismatch")
    else
      match col_meta.json with
      | none => .error (.NestedObject "Plain text column w/o JSON")
      | some json =>
        match json with
        | .SchemaName nm =>
          if nm = "std.FileUpload" then
            match env.parseFileUploadInput value with
            | .error e => .error (.JsonSerialization e)
            | .ok file_upload =>
              match env.consumeFile file_upload with
              | .error e => .error (.Schema e)
              | .ok (_col_name, metadata, content) =>
                match env.fileUploadToString metadata with
                | .error e => .error (.JsonSerialization e)
                | .ok s => .ok (.Text s, some [(metadata, content)])
          else
            match env.validate json value with
            | .error e => .error (.JsonValidation e)
            | .ok _ => .ok (.Text (env.jsonToString value), none)
        | .Pattern _ =>
          match env.validate json value with
          | .error e => .error (.JsonValidation e)
          | .ok _ => .ok (.Text (env.jsonToString value), none)
  | .arr arr =>
    match col.data_type with
    | .Blob =>
      match try_json_array_to_blob arr with
      | .ok v => .ok (v, none)
      | .error e => .error e
    | .Text =>
      match col_meta.json with
      | some json =>
        match json with
        | .SchemaName nm =>
          if nm = "std.FileUploads" then
            match env.parseFileUploadInputs value with
            | .error e => .error (.JsonSerialization e)
            | .ok file_upload_vec =>
              match consumeAll env file_upload_vec with
              | .error e => .error e
              | .ok uploads =>
                match env.fileUploadsToString (uploads.map Prod.fst) with
                | .error e => .error (.JsonSerialization e)
                | .ok s => .ok (.Text s, some uploads)
          else
            match env.validate json value with
            | .error e => .error (.JsonValidation e)
            | .ok _ => .ok (.Text (env.jsonToString value), none)
        | .Pattern _ =>
          match env.validate json value with
          | .error e => .error (.JsonValidation e)
          | .ok _ => .ok (.Text (env.jsonToString value), none)
      | none => .error (.NestedArray "Received nested array for unsuitable column")
    | _ => .error (.NestedArray "Received nested array for unsuitable column")
  | x =>
    match simple_json_value_to_param env.parseF64 col.data_type x with
    | .ok v => .ok (v, none)
    | .error e => .error e

/-- One iteration of the `for (key, value) in json` loop of `Params::from`:
unknown columns are skipped, matched columns contribute a named parameter
(and possibly files). -/
def processEntry {F : Type} (env : Env F) (md : TableMetadata)
    (p : Params F) (kv : String × JValue F) : Except ParamsError (Params F) :=
  match md.column_by_name kv.1 with
  | none => .ok p  -- unknown column: silently skipped (protobuf-style)
  | some (col, col_meta) =>
    match extract_params_and_files_from_json env col col_meta kv.2 with
    | .error e => .error e
    | .ok (param, json_files) =>
      let p' :=
        match json_files with
        | some fs =>
          { p with
            files := p.files ++ fs,
            file_col_names := p.file_col_names ++ [kv.1] }
        | none => p
      .ok (p'.push_param kv.1 param)

/-- The `multipart_files.into_iter().map(file.consume()).collect()` step of
`Params::append_multipart_files`: every part must carry a field name. -/
def consumeMultipart {F : Type} (env : Env F) :
    List FileUploadInput →
    Except ParamsError (List (String × FileUpload × List Nat))
  | [] => .ok []
  | f :: rest =>
    match env.consumeFile f with
    | .error e => .error (.Schema e)
    | .ok (col_name, metadata, content) =>
      match col_name with
      | none => .error (.Column "Multipart form upload missing name property")
      | some n =>
        match consumeMultipart env rest with
        | .ok tail => .ok ((n, metadata, content) :: tail)
        | .error e => .error e

/-- Push one multipart file column: placeholder, column name and
file-column name (all three lists grow together). -/
def Params.pushMultipartCol {F : Type} (p : Params F) (col_name : String)
    (value : String) : Params F :=
  { p with
    named_params := p.named_params ++ [(prefix_colon col_name, .Text value)],
    col_names := p.col_names ++ [col_name],
    file_col_names := p.file_col_names ++ [col_name] }

/-- The validation/organization loop of `Params::append_multipart_files`:
`uploaded_files` is the collision-detecting set for single-file columns. -/
def multipartGo {F : Type} (env : Env F) (md : TableMetadata)
    (p : Params F) (uploaded_files : List String) :
    List (String × FileUpload × List Nat) → Except ParamsError (Params F)
  | [] => .ok p
  | (field_name, file_metadata, _content) :: rest =>
    match md.column_by_name field_name with
    | none => multipartGo env md p uploaded_files rest  -- unknown column: skip
    | some (col, col_meta) =>
      match col_meta.json with
      | some (.SchemaName schema_name) =>
        match env.fileUploadToString file_metadata with
        | .error e => .error (.JsonSerialization e)
        | .ok v =>
          if schema_name = "std.FileUpload" then
            if uploaded_files.contains col.name then
              .error (.Column "Collision: too many files for std.FileUpload")
            else
              multipartGo env md (p.pushMultipartCol col.name v)
                (uploaded_files ++ [col.name]) rest
          else if schema_name = "std.FileUploads" then
            multipartGo env md (p.pushMultipartCol col.name v) uploaded_files rest
          else
            .error (.Column "Mismatching JSON schema")
      | _ => .error (.Column "Expected json column")

/-- Model of `Params::append_multipart_files`. -/
def Params.append_multipart_files {F : Type} (env : Env F) (md : TableMetadata)
    (p : Params F) (multipart_files : List FileUploadInput) :
    Except ParamsError (Params F) :=
  match consumeMultipart env multipart_files with
  | .error e => .error e
  | .ok files =>
    match multipartGo env md p [] files with
    | .error e => .error e
    | .ok p' => .ok { p' with files := p'.files ++ files.map (fun t => t.2) }

/-- Model of `Params::from` (`from` is a Lean keyword): builds the ordered named
parameters from a top-level JSON object and optional multipart files. -/
def Params.fromJson {F : Type} (env : Env F) (md : TableMetadata)
    (json : List (String × JValue F))
    (multipart_files : Option (List FileUploadInput)) :
    Except ParamsError (Params F) :=
  let init : Params F :=
    { table_name := md.name, named_params := [], col_names := [],
      files := [], file_col_names := [] }
  match json.foldlM (processEntry env md) init with
  | .error e => .error e
  | .ok p =>
    match multipart_files with
    | some fs => p.append_multipart_files env md fs
    | none => .ok p

/-- Model of `ConflictResolutionStrategy` from the config proto. -/
inductive ConflictResolutionStrategy where
  | Undefined
  | Abort
  | Rollback
  | Fail
  | Ignore
  | Replace
deriving DecidableEq, Repr

/-- Model of `QueryError`: the query builders' error taxonomy (variants of both the
`json_to_sql.rs` and `query_builder.rs` versions; payloads reduced to what
the claims need). -/
inductive QueryError where
  | Precondition (msg : String)
  | Sql (msg : String)
  | FromSql (msg : String)
  | TokioRusqlite (msg : String)
  | JsonSerialization (e : SerdeError)
  | Storage (e : ObjectStoreError)
  | File (msg : String)
  | NotFound
  | Internal (msg : String)
deriving DecidableEq, Repr

/-- Model of `InsertQueryBuilder::conflict_resolution_clause`: 1:1 mapping onto
SQLite's conflict clauses. -/
def conflict_resolution_clause : ConflictResolutionStrategy → String
  | .Undefined => ""
  | .Abort => "OR ABORT"
  | .Rollback => "OR ROLLBACK"
  | .Fail => "OR FAIL"
  | .Ignore => "OR IGNORE"
  | .Replace => "OR REPLACE"

/-- Loop of `InsertQueryBuilder::build_col_names`: renders `"a", "b", ...`
by appending `", ""` before every column but the first. -/
def build_col_names_go (s : String) (first : Bool) : List String → String
  | [] => s
  | nm :: rest =>
    build_col_names_go
      (s ++ (if first then "\"" else ", \"") ++ nm ++ "\"") false rest

/-- Model of `InsertQueryBuilder::build_col_names`. -/
def build_col_names (column_names : List String) : String :=
  build_col_names_go "" true column_names

/-- Model of `itertools::join(", ")`: elements separated by `", "`. -/
def commaSep : List String → String
  | [] => ""
  | [x] => x
  | x :: y :: rest => x ++ ", " ++ commaSep (y :: rest)

/-- Model of `Params::placeholders`: the placeholder names joined with `", "`. -/
def Params.placeholders {F : Type} (p : Params F) : String :=
  commaSep (p.named_params.map Prod.fst)

/-- Model of `InsertQueryBuilder::build_insert_query` from `json_to_sql.rs`: the
INSERT statement, the named parameters and the files to persist. -/
def build_insert_query {F : Type} (params : Params F)
    (conflict_resolution : Option ConflictResolutionStrategy)
    (return_column_name : Option String) :
    Except QueryError (String × List (String × Value F) × List (FileUpload × List Nat)) :=
  let table_name := params.table_name
  let conflict_clause :=
    conflict_resolution_clause (conflict_resolution.getD .Undefined)
  let return_fragment : String :=
    match return_column_name with
    | some rc => if rc = "*" then "RETURNING *" else "RETURNING \"" ++ rc ++ "\""
    | none => ""
  let query :=
    if ¬params.col_names.isEmpty then
      "INSERT " ++ conflict_clause ++ " INTO \"" ++ table_name ++ "\" (" ++
        build_col_names params.col_names ++ ") VALUES (" ++
        params.placeholders ++ ") " ++ return_fragment
    else
      -- The insert empty record case, i.e. "{}".
      "INSERT " ++ conflict_clause ++ " INTO \"" ++ table_name ++
        "\" DEFAULT VALUES " ++ return_fragment
  .ok (query, params.named_params, params.files)

/-- Spec-side INSERT statement, written from the spec's words: `INSERT [OR
<conflict-policy>] INTO table (cols…) VALUES (placeholders…)` with the
conflict policy mapped 1:1 and a `DEFAULT VALUES` fallback for zero
columns.  Compared against `build_insert_query` by the C4 theorem. -/
def specInsertQuery {F : Type} (params : Params F)
    (conflict_resolution : Option ConflictResolutionStrategy) : String :=
  let clause : String :=
    match conflict_resolution with
    | none => ""
    | some .Undefined => ""
    | some .Abort => "OR ABORT"
    | some .Rollback => "OR ROLLBACK"
    | some .Fail => "OR FAIL"
    | some .Ignore => "OR IGNORE"
    | some .Replace => "OR REPLACE"
  if params.col_names.isEmpty then
    "INSERT " ++ clause ++ " INTO \"" ++ params.table_name ++
      "\" DEFAULT VALUES "
  else
    "INSERT " ++ clause ++ " INTO \"" ++ params.table_name ++ "\" (" ++
      commaSep (params.col_names.map (fun c => "\"" ++ c ++ "\"")) ++
      ") VALUES (" ++ commaSep (params.named_params.map Prod.fst) ++ ") "

/-- A stored row, reduced to what the record-level DELETE/UPDATE statements
inspect: its primary-key value and its `_rowid_`. -/
structure DbRow (F : Type) where
  pk : Value F
  rowid : Int

/-- A table's rows. -/
structure DbTable (F : Type) where
  rows : List (DbRow F)

/-- Side effects of a query-builder run on the object store and the
pending-deletions ledger. -/
inductive FileEffect where
  | writeObject (path : String)
  | deleteObject (path : String)
  | deletePendingFiles (rowid : Int)
deriving DecidableEq, Repr

/-- Whether an effect removes (or schedules removal of) a file. -/
def FileEffect.isDeletion : FileEffect → Bool
  | .writeObject _ => false
  | .deleteObject _ => true
  | .deletePendingFiles _ => true

/-- Fallible external collaborators of the query builders: the object store
and the pending-deletions sweep, plus an injectable engine failure. -/
structure QueryEnv where
  putObject : String → Except ObjectStoreError Unit
  pendingDelete : Int → Except QueryError Unit
  sqlFail : Option QueryError

/-- Model of `DELETE FROM t WHERE pk = $1 RETURNING _rowid_` consumed through
`query_value`: the first returned row's `_rowid_` (none when no row
matched), and the table without the matching rows. -/
def deleteReturningRowid {F : Type} [DecidableEq F] (tbl : DbTable F)
    (pk_value : Value F) : Option Int × DbTable F :=
  (((tbl.rows.filter (fun r => r.pk = pk_value)).head?).map DbRow.rowid,
   ⟨tbl.rows.filter (fun r => ¬r.pk = pk_value)⟩)

/-- Model of `UPDATE … WHERE pk = :pk RETURNING _rowid_` consumed through
`query_value`: the first matching row's `_rowid_`. -/
def firstMatchRowid {F : Type} [DecidableEq F] (tbl : DbTable F)
    (pk_value : Value F) : Option Int :=
  ((tbl.rows.filter (fun r => r.pk = pk_value)).head?).map DbRow.rowid

/-- Model of `DeleteQueryBuilder::run` from `query_builder.rs`: deletes the row
returning its rowid, then sweeps its pending file deletions; zero matched
rows surface as `QueryError::NotFound`. -/
def DeleteQueryBuilder.run {F : Type} [DecidableEq F] (env : QueryEnv)
    (tbl : DbTable F) (pk_value : Value F) :
    Except QueryError Int × DbTable F × List FileEffect :=
  match env.sqlFail with
  | some e => (.error e, tbl, [])
  | none =>
    match deleteReturningRowid tbl pk_value with
    | (none, tbl') => (.error .NotFound, tbl', [])
    | (some rowid, tbl') =>
      match env.pendingDelete rowid with
      | .error e => (.error e, tbl', [.deletePendingFiles rowid])
      | .ok _ => (.ok rowid, tbl', [.deletePendingFiles rowid])

/-- The pre-statement object-store writes of insert/update: stop at the
first failing write (`write_file(...).await?`). -/
def writeFiles (env : QueryEnv) :
    List (FileUpload × List Nat) → Except QueryError Unit × List FileEffect
  | [] => (.ok (), [])
  | (metadata, _content) :: rest =>
    match env.putObject metadata.path with
    | .error e => (.error (.Storage e), [.writeObject metadata.path])
    | .ok _ =>
      match writeFiles env rest with
      | (r, effs) => (r, .writeObject metadata.path :: effs)

/-- Model of `UpdateQueryBuilder::run` from `query_builder.rs`: no-op on an empty
column set; otherwise appends the primary-key parameter, persists new files
to the store, runs `UPDATE … RETURNING _rowid_`, and only when a row was
returned sweeps that row's pending file deletions.  On a statement failure
the just-written objects are deleted best-effort. -/
def UpdateQueryBuilder.run {F : Type} [DecidableEq F] (env : QueryEnv)
    (tbl : DbTable F) (params : Params F) (pk_column : String)
    (pk_value : Value F) : Except QueryError Unit × List FileEffect :=
  if params.col_names.isEmpty then (.ok (), [])
  else
    let params' := params.push_param pk_column pk_value
    let files := params'.files
    match writeFiles env files with
    | (.error e, effs) => (.error e, effs)
    | (.ok _, effs) =>
      match env.sqlFail with
      | some e =>
        (.error e, effs ++ files.map (fun f => .deleteObject f.1.path))
      | none =>
        match firstMatchRowid tbl pk_value with
        | some rowid =>
          match env.pendingDelete rowid with
          | .error e => (.error e, effs ++ [.deletePendingFiles rowid])
          | .ok _ => (.ok (), effs ++ [.deletePendingFiles rowid])
        | none => (.ok (), effs)

/-- Model of `RecordError` from `records/error.rs` (variant used by expansion). -/
inductive RecordError where
  | ApiNotFound
  | ApiRequiresTable
  | RecordNotFound
  | Forbidden
  | Internal (msg : String)
deriving DecidableEq, Repr

/-- Model of `ExpandedTable` from `query_builder.rs`. -/
structure ExpandedTable where
  metadata : TableMetadata
  local_column_name : String
  num_columns : Nat
  foreign_table_name : String
  foreign_column_name : String
deriving DecidableEq, Repr

/-- Model of `itertools::find_or_first`: first element satisfying the predicate, or
the first element when none does. -/
def findOrFirst {α : Type} (p : α → Bool) (l : List α) : Option α :=
  match l.find? p with
  | some x => some x
  | none => l.head?

/-- Whether a column option is a foreign-key constraint. -/
def ColumnOption.isForeignKey : ColumnOption → Bool
  | .ForeignKey _ _ => true
  | _ => false

/-- Model of `TableMetadataCache::get`: lookup by table name. -/
def cacheGet (cache : List TableMetadata) (table_name : String) :
    Option TableMetadata :=
  cache.find? (fun t => t.name = table_name)

/-- Fallback column for the (by construction in-bounds) primary-key index
dereference in `expand_tables`. -/
def dummyColumn : Column := ⟨"", .Null, []⟩

/-- Loop of `expand_tables` from `query_builder.rs`: empty names are
skipped; a name that is no column of the root table, or whose column's
options hold no foreign key, or whose foreign table/pk cannot be resolved,
aborts with `ApiRequiresTable`. -/
def expand_tables_go (cache : List TableMetadata) (root : TableMetadata) :
    List String → Except RecordError (List ExpandedTable)
  | [] => .ok []
  | col_name :: rest =>
    if col_name = "" then expand_tables_go cache root rest
    else
      match root.column_by_name col_name with
      | none => .error .ApiRequiresTable
      | some (column, _col_metadata) =>
        match findOrFirst ColumnOption.isForeignKey column.options with
        | some (.ForeignKey foreign_table_name _referred_columns) =>
          match cacheGet cache foreign_table_name with
          | none => .error .ApiRequiresTable
          | some foreign_table =>
            match foreign_table.record_pk_column with
            | none => .error .ApiRequiresTable
            | some idx =>
              let foreign_pk_column :=
                (foreign_table.schema.columns.getD idx dummyColumn).name
              match expand_tables_go cache root rest with
              | .ok tail =>
                .ok ({ metadata := foreign_table,
                       local_column_name := col_name,
                       num_columns := foreign_table.schema.columns.length,
                       foreign_table_name := foreign_table_name,
                       foreign_column_name := foreign_pk_column } :: tail)
              | .error e => .error e
        | _ => .error .ApiRequiresTable

/-- Model of `expand_tables` from `query_builder.rs`. -/
def expand_tables (cache : List TableMetadata) (table_name : String)
    (expand : List String) : Except RecordError (List ExpandedTable) :=
  match cacheGet cache table_name with
  | none => .error .ApiRequiresTable
  | some root_table => expand_tables_go cache root_table expand

/-- Model of `AlterTableRequest` from `alter_table.rs`. -/
structure AlterTableRequest where
  source_schema : Table
  target_schema : Table
deriving DecidableEq, Repr

/-- The working-table name of `alter_table_handler`: the target name
directly for a rename, a private temporary name otherwise. -/
def temp_table_name (req : AlterTableRequest) : QualifiedName :=
  if req.target_schema.name ≠ req.source_schema.name then
    req.target_schema.name
  else
    { name := "__alter_table_" ++ req.target_schema.name.name,
      database_schema := req.target_schema.name.database_schema }

/-- Model of `copy_columns` from `alter_table_handler`: the target columns whose
names also occur in the source schema, in target order. -/
def copy_columns (req : AlterTableRequest) : List String :=
  let source_columns := req.source_schema.columns.map Column.name
  req.target_schema.columns.filterMap (fun c =>
    if source_columns.contains c.name then some c.name else none)

/-- The shape of the data-copy statement `alter_table_handler` issues:
`INSERT INTO temp (column_list) SELECT column_list FROM source` — the same
`column_list` on both sides. -/
structure InsertSelect where
  into_table : QualifiedName
  column_list : List String
  from_table : QualifiedName
deriving DecidableEq, Repr

/-- The INSERT…SELECT copy statement generated by `alter_table_handler`. -/
def alter_copy_statement (req : AlterTableRequest) : InsertSelect :=
  { into_table := temp_table_name req,
    column_list := copy_columns req,
    from_table := req.source_schema.name }

/-- Model of `SchemaLookupError` from `schema_metadata.rs`. -/
inductive SchemaLookupError where
  | Sql (msg : String)
  | FromSql (msg : String)
  | Schema (e : SchemaError)
  | Missing
  | SqlParse (msg : String)
  | Other (msg : String)
deriving DecidableEq, Repr

/-- Model of `ViewMetadata` (only its identity matters to the cache claims). -/
structure ViewMetadata where
  name : QualifiedName
deriving DecidableEq, Repr

/-- Model of `SchemaMetadataCacheState`: the guarded whole-cache state. -/
structure SchemaMetadataCacheState where
  tables : List TableMetadata
  views : List ViewMetadata
deriving DecidableEq, Repr

/-- The three fallible pipeline steps `invalidate_all` runs against the
connection: introspection+parsing, metadata building with trigger
installation, and view building. -/
structure SchemaDbEnv where
  lookup_all_table_schemas : Except SchemaLookupError (List Table)
  build_tables : List Table → Except SchemaLookupError (List TableMetadata)
  build_views : List Table → Except SchemaLookupError (List ViewMetadata)

/-- Model of `SchemaMetadataCache::invalidate_all`: re-runs the full pipeline; each
`?` returns early without touching the stored state, and the whole-state
swap happens only after every step has succeeded. -/
def invalidate_all (env : SchemaDbEnv) (state : SchemaMetadataCacheState) :
    Except SchemaLookupError Unit × SchemaMetadataCacheState :=
  match env.lookup_all_table_schemas with
  | .error e => (.error e, state)
  | .ok tables =>
    match env.build_tables tables with
    | .error e => (.error e, state)
    | .ok table_map =>
      match env.build_views tables with
      | .error e => (.error e, state)
      | .ok views => (.ok (), { tables := table_map, views := views })

/-! Concrete instances used to exercise the theorems on closed inputs. -/

/-- A trivial external environment over `F := Unit` (no float parsing, no
schema validation failures needed by the closed instances). -/
def wEnv : Env Unit :=
  { parseF64 := fun _ => none,
    validate := fun _ _ => .ok (),
    jsonToString := fun _ => "serialized",
    fileUploadToString := fun _ => .ok "serialized",
    fileUploadsToString := fun _ => .ok "serialized",
    parseFileUploadInput := fun _ => .error ⟨"unused"⟩,
    parseFileUploadInputs := fun _ => .error ⟨"unused"⟩,
    consumeFile := fun _ => .error ⟨"unused"⟩ }

/-- A healthy query environment: object store and pending-delete sweep
succeed, the engine does not fail. -/
def wQueryEnv : QueryEnv :=
  { putObject := fun _ => .ok (),
    pendingDelete := fun _ => .ok (),
    sqlFail := none }

/-- A schema-pipeline environment whose introspection step fails. -/
def wSchemaEnvFail : SchemaDbEnv :=
  { lookup_all_table_schemas := .error .Missing,
    build_tables := fun _ => .ok [],
    build_views := fun _ => .ok [] }

/-- A one-table cache state. -/
def wMdA : TableMetadata :=
  { schema := ⟨⟨"tbl", none⟩, [⟨"a", .Text, []⟩]⟩,
    colMeta := [⟨none⟩],
    record_pk_column := some 0 }

/-- A cache state holding `wMdA`. -/
def wCacheState : SchemaMetadataCacheState :=
  { tables := [wMdA], views := [] }

/-- Root table for the expansion instances: single integer pk column
`id`, no foreign keys. -/
def c8Root : TableMetadata :=
  { schema := ⟨⟨"t", none⟩, [⟨"id", .Integer, [.Unique true]⟩]⟩,
    colMeta := [⟨none⟩],
    record_pk_column := some 0 }

/-- Metadata cache holding only `c8Root`. -/
def c8Cache : List TableMetadata := [c8Root]

/-- Tail of a quoted comma-separated column list: `, "c1", "c2", ...` — the
shape `build_col_names` produces after its first element. -/
def commaTailQ : List String → String
  | [] => ""
  | c :: rest => ", \"" ++ c ++ "\"" ++ commaTailQ rest

/-- The structural invariant of `Params` claimed by the spec: placeholders
pair up 1:1 and in order with the bare column names, each being `:` prepended
to its column name, and every file-column name also occurs among the column
names. -/
def ParamsAligned {F : Type} (p : Params F) : Prop :=
  List.Forall₂ (fun (np : String × Value F) c => np.1 = ":" ++ c)
    p.named_params p.col_names ∧
  ∀ c ∈ p.file_col_names, c ∈ p.col_names

/-- A concrete non-empty `Params` over `Unit` floats. -/
def wParamsA : Params Unit :=
  { table_name := "tbl",
    named_params := [(":a", .Text "hi")],
    col_names := ["a"],
    files := [],
    file_col_names := [] }

end Trailbase

namespace Trailbase

/-! Helper lemmas shared between the claim theorems. -/

theorem findOrFirst_mem {α : Type} {p : α → Bool} {l : List α} {x : α}
    (h : findOrFirst p l = some x) : x ∈ l := by
  unfold findOrFirst at h
  cases hf : l.find? p with
  | some y =>
    rw [hf] at h
    simp only [Option.some.injEq] at h
    subst h
    exact List.mem_of_find?_eq_some hf
  | none =>
    rw [hf] at h
    simp only at h
    exact List.mem_of_mem_head? (by simp [h])

theorem writeFiles_all_ok (env : QueryEnv)
    (files : List (FileUpload × List Nat))
    (h : ∀ f ∈ files, env.putObject f.1.path = .ok ()) :
    writeFiles env files =
      (.ok (), files.map (fun f => .writeObject f.1.path)) := by
  induction files with
  | nil => rfl
  | cons f rest ih =>
    have hf : env.putObject f.1.path = .ok () := h f (by simp)
    have hrest : writeFiles env rest =
        (.ok (), rest.map (fun g => .writeObject g.1.path)) :=
      ih (fun g hg => h g (by simp [hg]))
    simp [writeFiles, hf, hrest]

theorem build_col_names_go_false (l : List String) :
    ∀ s : String, build_col_names_go s false l = s ++ commaTailQ l := by
  induction l with
  | nil => intro s; simp [build_col_names_go, commaTailQ]
  | cons c rest ih =>
    intro s
    rw [show build_col_names_go s false (c :: rest) =
        build_col_names_go (s ++ ", \"" ++ c ++ "\"") false rest from rfl, ih]
    simp only [commaTailQ, String.append_assoc]

theorem commaSep_quoted (c : String) (rest : List String) :
    commaSep ((c :: rest).map (fun x => "\"" ++ x ++ "\"")) =
      "\"" ++ c ++ "\"" ++ commaTailQ rest := by
  induction rest generalizing c with
  | nil => simp [commaSep, commaTailQ]
  | cons d rest ih =>
    simp only [List.map_cons] at ih ⊢
    rw [show commaSep
        (("\"" ++ c ++ "\"") :: ("\"" ++ d ++ "\"") ::
          rest.map (fun x => "\"" ++ x ++ "\"")) =
        "\"" ++ c ++ "\"" ++ ", " ++
          commaSep (("\"" ++ d ++ "\"") ::
            rest.map (fun x => "\"" ++ x ++ "\""))
      from rfl]
    rw [ih d]
    show _ = "\"" ++ c ++ "\"" ++ (", \"" ++ d ++ "\"" ++ commaTailQ rest)
    rw [show (", \"" : String) = ", " ++ "\"" from rfl]
    simp only [String.append_assoc]

theorem build_col_names_eq_commaSep (c : String) (rest : List String) :
    build_col_names (c :: rest) =
      commaSep ((c :: rest).map (fun x => "\"" ++ x ++ "\"")) := by
  rw [commaSep_quoted]
  show build_col_names_go ("" ++ "\"" ++ c ++ "\"") false rest = _
  rw [build_col_names_go_false]
  simp [String.empty_append]

/-- C4: `InsertQueryBuilder::build_insert_query` generates `INSERT [OR
<conflict-policy>] INTO table (cols…) VALUES (placeholders…)` with the
conflict policy mapped 1:1 ({none → no clause, ABORT → OR ABORT, ROLLBACK →
OR ROLLBACK, FAIL → OR FAIL, IGNORE → OR IGNORE, REPLACE → OR REPLACE}),
and `INSERT … DEFAULT VALUES` when the `Params` has zero columns — the
spec-side rendering `specInsertQuery` states this mapping directly. -/
theorem build_insert_query_matches_spec {F : Type} (params : Params F)
    (cr : Option ConflictResolutionStrategy) :
    build_insert_query params cr none =
      .ok (specInsertQuery params cr, params.named_params, params.files) := by
  have hclause : conflict_resolution_clause (cr.getD .Undefined) =
      (match cr with
       | none => ""
       | some .Undefined => ""
       | some .Abort => "OR ABORT"
       | some .Rollback => "OR ROLLBACK"
       | some .Fail => "OR FAIL"
       | some .Ignore => "OR IGNORE"
       | some .Replace => "OR REPLACE") := by
    cases cr with
    | none => rfl
    | some s => cases s <;> rfl
  unfold build_insert_query specInsertQuery
  cases hcols : params.col_names with
  | nil => simp [hcols, hclause]
  | cons c rest =>
    simp only [hcols, List.isEmpty_cons, Bool.false_eq_true, not_false_iff,
      if_true, if_false, hclause, Params.placeholders]
    rw [build_col_names_eq_commaSep]
    simp [String.append_empty]

theorem blob_go_ok {F : Type} (l : List (JValue F)) :
    ∀ (acc : List Nat) (bs : List Nat), specBlobBytes l = some bs →
      try_json_array_to_blob_go acc l = .ok (.Blob (acc ++ bs)) := by
  induction l with
  | nil =>
    intro acc bs h
    simp only [specBlobBytes, Option.some.injEq] at h
    subst h
    simp [try_json_array_to_blob_go]
  | cons el rest ih =>
    intro acc bs h
    simp only [specBlobBytes] at h
    cases hb : specByte el with
    | none => rw [hb] at h; simp at h
    | some b =>
      rw [hb] at h
      cases hr : specBlobBytes rest with
      | none => rw [hr] at h; simp at h
      | some bs' =>
        rw [hr] at h
        simp only [Option.some.injEq] at h
        subst h
        obtain ⟨i, hi, rfl, rfl⟩ :
            ∃ i, (0 ≤ i ∧ i ≤ 255) ∧ el = .num (.intVal i) ∧ b = i.toNat := by
          cases el with
          | num n =>
            cases n with
            | intVal i =>
              simp only [specByte] at hb
              by_cases hc : 0 ≤ i ∧ i ≤ 255
              · rw [if_pos hc] at hb
                cases hb
                exact ⟨i, hc, rfl, rfl⟩
              · rw [if_neg hc] at hb
                cases hb
            | floatVal f => simp [specByte] at hb
          | null => simp [specByte] at hb
          | bool b => simp [specByte] at hb
          | str s => simp [specByte] at hb
          | arr xs => simp [specByte] at hb
          | obj kvs => simp [specByte] at hb
        simp [try_json_array_to_blob_go, JNumber.as_i64, i64Min, i64Max,
          tryIntoU8, (by omega : -9223372036854775808 ≤ i ∧
            i ≤ 9223372036854775807), (by omega : (0:Int) ≤ i ∧ i ≤ 255),
          ih (acc ++ [i.toNat]) bs' hr]

theorem blob_go_err {F : Type} (l : List (JValue F)) :
    ∀ acc : List Nat, specBlobBytes l = none →
      ∃ e, try_json_array_to_blob_go acc l = .error e := by
  induction l with
  | nil => intro acc h; simp [specBlobBytes] at h
  | cons el rest ih =>
    intro acc h
    simp only [specBlobBytes] at h
    cases hb : specByte el with
    | some b =>
      rw [hb] at h
      cases hr : specBlobBytes rest with
      | some bs' => rw [hr] at h; simp at h
      | none =>
        obtain ⟨i, hi, rfl, rfl⟩ :
            ∃ i, (0 ≤ i ∧ i ≤ 255) ∧ el = .num (.intVal i) ∧ b = i.toNat := by
          cases el with
          | num n =>
            cases n with
            | intVal i =>
              simp only [specByte] at hb
              by_cases hc : 0 ≤ i ∧ i ≤ 255
              · rw [if_pos hc] at hb
                cases hb
                exact ⟨i, hc, rfl, rfl⟩
              · rw [if_neg hc] at hb
                cases hb
            | floatVal f => simp [specByte] at hb
          | null => simp [specByte] at hb
          | bool b => simp [specByte] at hb
          | str s => simp [specByte] at hb
          | arr xs => simp [specByte] at hb
          | obj kvs => simp [specByte] at hb
        obtain ⟨e, he⟩ := ih (acc ++ [i.toNat]) hr
        refine ⟨e, ?_⟩
        simp [try_json_array_to_blob_go, JNumber.as_i64, i64Min, i64Max,
          tryIntoU8, (by omega : -9223372036854775808 ≤ i ∧
            i ≤ 9223372036854775807), (by omega : (0:Int) ≤ i ∧ i ≤ 255), he]
    | none =>
      cases el with
      | num n =>
        cases n with
        | intVal i =>
          simp only [specByte] at hb
          by_cases hc : 0 ≤ i ∧ i ≤ 255
          · rw [if_pos hc] at hb; cases hb
          · by_cases h64 : i64Min ≤ i ∧ i ≤ i64Max
            · refine ⟨.UnexpectedType "NonByteNumber" "Out-of-range int", ?_⟩
              simp [try_json_array_to_blob_go, JNumber.as_i64, if_pos h64,
                tryIntoU8, if_neg hc]
            · refine ⟨.UnexpectedType "NonByteNumber" "Number type", ?_⟩
              simp [try_json_array_to_blob_go, JNumber.as_i64, if_neg h64]
        | floatVal f =>
          exact ⟨.UnexpectedType "NonByteNumber" "Number type",
            by simp [try_json_array_to_blob_go, JNumber.as_i64]⟩
      | null =>
        exact ⟨.InhomogenousArray "Expected number",
          by simp [try_json_array_to_blob_go]⟩
      | bool b =>
        exact ⟨.InhomogenousArray "Expected number",
          by simp [try_json_array_to_blob_go]⟩
      | str s =>
        exact ⟨.InhomogenousArray "Expected number",
          by simp [try_json_array_to_blob_go]⟩
      | arr xs =>
        exact ⟨.InhomogenousArray "Expected number",
          by simp [try_json_array_to_blob_go]⟩
      | obj kvs =>
        exact ⟨.InhomogenousArray "Expected number",
          by simp [try_json_array_to_blob_go]⟩

theorem specBlobBytes_none_of_bad {F : Type} (arr : List (JValue F))
    (el : JValue F) (hmem : el ∈ arr)
    (hbad : (∀ n, el ≠ .num n) ∨
      ∃ i, el = .num (.intVal i) ∧ (i < 0 ∨ 255 < i)) :
    specBlobBytes arr = none := by
  induction arr with
  | nil => cases hmem
  | cons hd rest ih =>
    rcases List.mem_cons.mp hmem with rfl | hmem'
    · have hb : specByte el = none := by
        rcases hbad with hnn | ⟨i, rfl, hrange⟩
        · cases el with
          | num n => exact absurd rfl (hnn n)
          | null => rfl
          | bool b => rfl
          | str s => rfl
          | arr xs => rfl
          | obj kvs => rfl
        · simp only [specByte]
          rw [if_neg (by omega)]
      simp [specBlobBytes, hb]
    · have hr := ih hmem'
      simp only [specBlobBytes, hr]
      cases specByte hd <;> rfl

/-- C2: for a JSON array targeting a Blob column, `simple_json_value_to_param`
produces a Blob whose bytes equal the array's elements in order whenever
every element is an integer 0–255 (`specBlobBytes` reads off exactly those
bytes), and returns a `ParamsError` — before any SQL executes, since this
happens while building `Params` — whenever some element is a non-number or
an integer outside 0–255. -/
theorem blob_array_param {F : Type} (pf : String → Option F)
    (arr : List (JValue F)) :
    (∀ bs, specBlobBytes arr = some bs →
      simple_json_value_to_param pf .Blob (.arr arr) = .ok (.Blob bs)) ∧
    ((∃ el ∈ arr, (∀ n, el ≠ .num n) ∨
        ∃ i, el = .num (.intVal i) ∧ (i < 0 ∨ 255 < i)) →
      ∃ e, simple_json_value_to_param pf .Blob (.arr arr) = .error e) := by
  have harr : simple_json_value_to_param pf .Blob (.arr arr) =
      try_json_array_to_blob arr := by
    simp [simple_json_value_to_param]
  constructor
  · intro bs h
    rw [harr]
    simpa using blob_go_ok arr [] bs h
  · rintro ⟨el, hmem, hbad⟩
    rw [harr]
    exact blob_go_err arr [] (specBlobBytes_none_of_bad arr el hmem hbad)

/-- Closed instance of C2: `[65, 255]` becomes the blob `[65, 255]`, and the
out-of-range element `256` is rejected. -/
theorem blob_array_param_witness :
    simple_json_value_to_param (fun _ => (none : Option Unit)) .Blob
      (.arr [.num (.intVal 65), .num (.intVal 255)]) = .ok (.Blob [65, 255]) ∧
    ∃ e, simple_json_value_to_param (fun _ => (none : Option Unit)) .Blob
      (.arr [.num (.intVal 256)]) = .error e :=
  ⟨(blob_array_param _ _).1 [65, 255] rfl,
   (blob_array_param _ _).2
     ⟨.num (.intVal 256), by simp, Or.inr ⟨256, rfl, by norm_num⟩⟩⟩

theorem expand_go_err (cache : List TableMetadata) (root : TableMetadata)
    (name : String) (hne : name ≠ "")
    (hbad : ∀ col cm, root.column_by_name name = some (col, cm) →
      ∀ o ∈ col.options, o.isForeignKey = false) :
    ∀ l : List String, name ∈ l →
      ∃ e, expand_tables_go cache root l = .error e := by
  intro l
  induction l with
  | nil => intro hmem; cases hmem
  | cons hd rest ih =>
    intro hmem
    rcases List.mem_cons.mp hmem with rfl | hmem'
    · cases hcol : root.column_by_name name with
      | none =>
        exact ⟨.ApiRequiresTable, by simp [expand_tables_go, if_neg hne, hcol]⟩
      | some pr =>
        obtain ⟨col, cm⟩ := pr
        have hopts := hbad col cm hcol
        cases hfo : findOrFirst ColumnOption.isForeignKey col.options with
        | none =>
          exact ⟨.ApiRequiresTable,
            by simp [expand_tables_go, if_neg hne, hcol, hfo]⟩
        | some o =>
          have ho : o.isForeignKey = false := hopts o (findOrFirst_mem hfo)
          cases o with
          | ForeignKey ft rc => simp [ColumnOption.isForeignKey] at ho
          | Null =>
            exact ⟨.ApiRequiresTable,
              by simp [expand_tables_go, if_neg hne, hcol, hfo]⟩
          | NotNull =>
            exact ⟨.ApiRequiresTable,
              by simp [expand_tables_go, if_neg hne, hcol, hfo]⟩
          | Default expr =>
            exact ⟨.ApiRequiresTable,
              by simp [expand_tables_go, if_neg hne, hcol, hfo]⟩
          | Unique is_primary =>
            exact ⟨.ApiRequiresTable,
              by simp [expand_tables_go, if_neg hne, hcol, hfo]⟩
          | Check expr =>
            exact ⟨.ApiRequiresTable,
              by simp [expand_tables_go, if_neg hne, hcol, hfo]⟩
    · by_cases hhd : hd = ""
      · subst hhd
        obtain ⟨e, he⟩ := ih hmem'
        exact ⟨e, by simp [expand_tables_go, he]⟩
      · cases hcol : root.column_by_name hd with
        | none =>
          exact ⟨.ApiRequiresTable,
            by simp [expand_tables_go, if_neg hhd, hcol]⟩
        | some pr =>
          obtain ⟨col, cm⟩ := pr
          cases hfo : findOrFirst ColumnOption.isForeignKey col.options with
          | none =>
            exact ⟨.ApiRequiresTable,
              by simp [expand_tables_go, if_neg hhd, hcol, hfo]⟩
          | some o =>
            cases o with
            | ForeignKey ft rc =>
              cases hcg : cacheGet cache ft with
              | none =>
                exact ⟨.ApiRequiresTable,
                  by simp [expand_tables_go, if_neg hhd, hcol, hfo, hcg]⟩
              | some ftbl =>
                cases hpk : ftbl.record_pk_column with
                | none =>
                  exact ⟨.ApiRequiresTable,
                    by simp [expand_tables_go, if_neg hhd, hcol, hfo, hcg,
                      hpk]⟩
                | some idx =>
                  obtain ⟨e, he⟩ := ih hmem'
                  exact ⟨e, by simp [expand_tables_go, if_neg hhd, hcol, hfo,
                    hcg, hpk, he]⟩
            | Null =>
              exact ⟨.ApiRequiresTable,
                by simp [expand_tables_go, if_neg hhd, hcol, hfo]⟩
            | NotNull =>
              exact ⟨.ApiRequiresTable,
                by simp [expand_tables_go, if_neg hhd, hcol, hfo]⟩
            | Default expr =>
              exact ⟨.ApiRequiresTable,
                by simp [expand_tables_go, if_neg hhd, hcol, hfo]⟩
            | Unique is_primary =>
              exact ⟨.ApiRequiresTable,
                by simp [expand_tables_go, if_neg hhd, hcol, hfo]⟩
            | Check expr =>
              exact ⟨.ApiRequiresTable,
                by simp [expand_tables_go, if_neg hhd, hcol, hfo]⟩

/-- C8 (amended): an expansion request naming a NON-EMPTY column that either
does not exist on the root table or carries no foreign-key option makes
`expand_tables` return an error rather than silently ignoring that column
or producing a partial expansion.  (The original claim fails for the empty
column name, which the loop skips — see the counterexample.) -/
theorem expand_tables_rejects_bad_column (cache : List TableMetadata)
    (table_name : String) (root : TableMetadata)
    (hroot : cacheGet cache table_name = some root)
    (expand : List String) (name : String) (hmem : name ∈ expand)
    (hne : name ≠ "")
    (hbad : ∀ col cm, root.column_by_name name = some (col, cm) →
      ∀ o ∈ col.options, o.isForeignKey = false) :
    ∃ e, expand_tables cache table_name expand = .error e := by
  obtain ⟨e, he⟩ := expand_go_err cache root name hne hbad expand hmem
  exact ⟨e, by simp [expand_tables, hroot, he]⟩

/-- C8 counterexample: the expansion loop silently skips the empty column
name, so a request naming the column `""` — which does not exist on the
root table — succeeds with no expansion instead of returning an error,
contradicting the claim as stated. -/
theorem expand_tables_empty_name_counterexample :
    c8Root.column_by_name "" = none ∧
    expand_tables c8Cache "t" [""] = .ok [] := by
  constructor
  · rfl
  · rfl

/-- Closed instance of the amended C8: expanding the non-existent column
`nope` errors. -/
theorem expand_tables_rejects_bad_column_witness :
    ∃ e, expand_tables c8Cache "t" ["nope"] = .error e :=
  expand_tables_rejects_bad_column c8Cache "t" c8Root rfl ["nope"] "nope"
    (by simp) (by simp)
    (by
      intro col cm h
      rw [show c8Root.column_by_name "nope" = none from rfl] at h
      exact Option.noConfusion h)

/-- C7: `json_string_to_value` is directed by the column's declared data
type: for a Blob column a 36-byte string is first parsed as a UUID, falling
back to URL-safe base64 on failure, while any other length is decoded as
URL-safe base64 only; integer-affinity columns parse the string as an `i64`
(failure is a `ParamsError`); real-affinity columns parse it as an `f64`
(failure is a `ParamsError`); textual affinities pass the string through
unchanged. -/
theorem json_string_type_directed {F : Type} (pf : String → Option F)
    (s : String) :
    (s.utf8ByteSize = 36 →
      json_string_to_value pf .Blob s =
        match uuidParse36 s with
        | some bytes => .ok (.Blob bytes)
        | none =>
          match b64UrlDecode s with
          | .ok bytes => .ok (.Blob bytes)
          | .error e => .error (.Decode e)) ∧
    (s.utf8ByteSize ≠ 36 →
      json_string_to_value pf .Blob s =
        match b64UrlDecode s with
        | .ok bytes => .ok (.Blob bytes)
        | .error e => .error (.Decode e)) ∧
    (∀ ct ∈ [ColumnDataType.Integer, .Int, .TinyInt, .SmallInt, .MediumInt,
        .BigInt, .UnignedBigInt, .Int2, .Int4, .Int8],
      json_string_to_value pf ct s =
        match parseI64 s with
        | some i => .ok (.Integer i)
        | none => .error .ParseInt) ∧
    (∀ ct ∈ [ColumnDataType.Real, .Double, .DoublePrecision, .Float],
      json_string_to_value pf ct s =
        match pf s with
        | some f => .ok (.Real f)
        | none => .error .ParseFloat) ∧
    (∀ ct ∈ [ColumnDataType.Text, .Character, .Varchar, .VaryingCharacter,
        .NChar, .NativeCharacter, .NVarChar, .Clob],
      json_string_to_value pf ct s = .ok (.Text s)) := by
  refine ⟨?_, ?_, ?_, ?_, ?_⟩
  · intro h
    simp [json_string_to_value, h]
  · intro h
    simp [json_string_to_value, if_neg h]
  · intro ct hct
    fin_cases hct <;> rfl
  · intro ct hct
    fin_cases hct <;> rfl
  · intro ct hct
    fin_cases hct <;> rfl

/-- Closed instance of C7: a hyphenated UUID string lands in the UUID path
of a Blob column, `"42"` parses as the integer 42 for an INTEGER column, and
text passes through unchanged. -/
theorem json_string_type_directed_witness :
    json_string_to_value (fun _ => (none : Option Unit)) .Blob
      "01950408-de17-7f13-8ef5-66d90b890bfd" =
      .ok (.Blob [1, 149, 4, 8, 222, 23, 127, 19, 142, 245, 102, 217, 11,
        137, 11, 253]) ∧
    json_string_to_value (fun _ => (none : Option Unit)) .Integer "42" =
      .ok (.Integer 42) ∧
    json_string_to_value (fun _ => (none : Option Unit)) .Text "hi" =
      .ok (.Text "hi") := by
  refine ⟨?_, ?_, ?_⟩
  · rw [(json_string_type_directed (fun _ => (none : Option Unit))
      "01950408-de17-7f13-8ef5-66d90b890bfd").1 (by decide)]
    rfl
  · rw [(json_string_type_directed (fun _ => (none : Option Unit))
      "42").2.2.1 .Integer (by simp)]
    rfl
  · exact (json_string_type_directed (fun _ => (none : Option Unit))
      "hi").2.2.2.2 .Text (by simp)

theorem foldlM_processEntry_filter {F : Type} (env : Env F)
    (md : TableMetadata) (json : List (String × JValue F)) :
    ∀ p : Params F,
      json.foldlM (processEntry env md) p =
        (json.filter (fun kv => (md.column_by_name kv.1).isSome)).foldlM
          (processEntry env md) p := by
  induction json with
  | nil => intro p; rfl
  | cons kv rest ih =>
    intro p
    cases hcol : md.column_by_name kv.1 with
    | none =>
      have hstep : processEntry env md p kv = .ok p := by
        simp [processEntry, hcol]
      have hfilter : (kv :: rest).filter
          (fun kv => (md.column_by_name kv.1).isSome) =
          rest.filter (fun kv => (md.column_by_name kv.1).isSome) := by
        simp [List.filter_cons, hcol]
      rw [hfilter, List.foldlM_cons, hstep]
      show (Except.ok p >>= fun b => rest.foldlM (processEntry env md) b) = _
      rw [show (Except.ok p >>= fun b =>
          rest.foldlM (processEntry env md) b) =
          rest.foldlM (processEntry env md) p from rfl]
      exact ih p
    | some pr =>
      have hfilter : (kv :: rest).filter
          (fun kv => (md.column_by_name kv.1).isSome) =
          kv :: rest.filter (fun kv => (md.column_by_name kv.1).isSome) := by
        simp [List.filter_cons, hcol]
      rw [hfilter, List.foldlM_cons, List.foldlM_cons]
      cases hstep : processEntry env md p kv with
      | error e => rfl
      | ok p' =>
        show (Except.ok p' >>= fun b => rest.foldlM (processEntry env md) b)
          = (Except.ok p' >>= fun b =>
              (rest.filter (fun kv => (md.column_by_name kv.1).isSome)).foldlM
                (processEntry env md) b)
        rw [show (Except.ok p' >>= fun b =>
            rest.foldlM (processEntry env md) b) =
            rest.foldlM (processEntry env md) p' from rfl]
        rw [show (Except.ok p' >>= fun b =>
            (rest.filter (fun kv => (md.column_by_name kv.1).isSome)).foldlM
              (processEntry env md) b) =
            (rest.filter (fun kv => (md.column_by_name kv.1).isSome)).foldlM
              (processEntry env md) p' from rfl]
        exact ih p'

/-- C3: `Params::from` never fails because of a key with no matching column:
building from the full JSON object equals building from the object with all
unknown keys dropped — such pairs contribute no named parameter and the
build proceeds with the remaining keys. -/
theorem params_from_skips_unknown_keys {F : Type} (env : Env F)
    (md : TableMetadata) (json : List (String × JValue F))
    (multipart_files : Option (List FileUploadInput)) :
    Params.fromJson env md json multipart_files =
      Params.fromJson env md
        (json.filter (fun kv => (md.column_by_name kv.1).isSome))
        multipart_files := by
  unfold Params.fromJson
  simp only [foldlM_processEntry_filter env md json]

theorem aligned_push {F : Type} {p : Params F} (h : ParamsAligned p)
    (c : String) (v : Value F) : ParamsAligned (p.push_param c v) := by
  constructor
  · exact List.rel_append h.1
      (List.Forall₂.cons rfl List.Forall₂.nil)
  · intro c' hc'
    exact List.mem_append.mpr (Or.inl (h.2 c' hc'))

theorem aligned_with_file_cols {F : Type} {p : Params F}
    (h : ParamsAligned p) (key : String) (fs : List (FileUpload × List Nat))
    (param : Value F) :
    ParamsAligned (Params.push_param
      { p with files := p.files ++ fs,
               file_col_names := p.file_col_names ++ [key] } key param) := by
  constructor
  · exact List.rel_append h.1 (List.Forall₂.cons rfl List.Forall₂.nil)
  · intro c' hc'
    simp only [Params.push_param, List.mem_append, List.mem_singleton] at hc'
    rcases hc' with hc' | rfl
    · exact List.mem_append.mpr (Or.inl (h.2 c' hc'))
    · exact List.mem_append.mpr (Or.inr (by simp))

theorem aligned_processEntry {F : Type} {env : Env F} {md : TableMetadata}
    {p q : Params F} {kv : String × JValue F} (hp : ParamsAligned p)
    (h : processEntry env md p kv = .ok q) : ParamsAligned q := by
  unfold processEntry at h
  split at h
  · cases h
    exact hp
  · split at h
    · cases h
    · rename_i param json_files heq
      cases json_files with
      | none =>
        injection h with h
        subst h
        exact aligned_push hp kv.1 param
      | some fs =>
        injection h with h
        subst h
        exact aligned_with_file_cols hp kv.1 fs param

theorem aligned_foldlM {F : Type} {env : Env F} {md : TableMetadata} :
    ∀ (l : List (String × JValue F)) (p q : Params F), ParamsAligned p →
      l.foldlM (processEntry env md) p = .ok q → ParamsAligned q := by
  intro l
  induction l with
  | nil =>
    intro p q hp h
    cases h
    exact hp
  | cons kv rest ih =>
    intro p q hp h
    rw [List.foldlM_cons] at h
    cases hstep : processEntry env md p kv with
    | error e =>
      rw [hstep] at h
      cases h
    | ok p' =>
      rw [hstep] at h
      exact ih p' q (aligned_processEntry hp hstep) h

theorem aligned_pushMultipartCol {F : Type} {p : Params F}
    (h : ParamsAligned p) (c : String) (v : String) :
    ParamsAligned (p.pushMultipartCol c v) := by
  constructor
  · exact List.rel_append h.1 (List.Forall₂.cons rfl List.Forall₂.nil)
  · intro c' hc'
    simp only [Params.pushMultipartCol, List.mem_append,
      List.mem_singleton] at hc'
    rcases hc' with hc' | rfl
    · exact List.mem_append.mpr (Or.inl (h.2 c' hc'))
    · exact List.mem_append.mpr (Or.inr (by simp))

theorem aligned_multipartGo {F : Type} {env : Env F} {md : TableMetadata} :
    ∀ (files : List (String × FileUpload × List Nat)) (p : Params F)
      (seen : List String) (q : Params F), ParamsAligned p →
      multipartGo env md p seen files = .ok q → ParamsAligned q := by
  intro files
  induction files with
  | nil =>
    intro p seen q hp h
    simp only [multipartGo, Except.ok.injEq] at h
    subst h
    exact hp
  | cons f rest ih =>
    intro p seen q hp h
    obtain ⟨field_name, file_metadata, content⟩ := f
    unfold multipartGo at h
    split at h
    · exact ih p seen q hp h
    · split at h
      · split at h
        · cases h
        · rename_i v hveq
          split at h
          · split at h
            · cases h
            · exact ih _ _ q (aligned_pushMultipartCol hp _ v) h
          · split at h
            · exact ih _ _ q (aligned_pushMultipartCol hp _ v) h
            · cases h
      · cases h

theorem aligned_append_multipart {F : Type} {env : Env F}
    {md : TableMetadata} {p q : Params F}
    {fs : List FileUploadInput} (hp : ParamsAligned p)
    (h : p.append_multipart_files env md fs = .ok q) : ParamsAligned q := by
  unfold Params.append_multipart_files at h
  split at h
  · cases h
  · rename_i files hfiles
    split at h
    · cases h
    · rename_i p' hmg
      injection h with h
      subst h
      exact ⟨(aligned_multipartGo files p [] p' hp hmg).1,
        (aligned_multipartGo files p [] p' hp hmg).2⟩

/-- C9: every `Params` value produced by `Params::from` (the JSON path and
the multipart path alike) has `named_params` and `col_names` of the same
length and order, pairwise related by placeholder = `:` ++ column name, and
every name in `file_col_names` also occurs in `col_names`. -/
theorem params_from_invariant {F : Type} (env : Env F) (md : TableMetadata)
    (json : List (String × JValue F))
    (multipart_files : Option (List FileUploadInput)) (p : Params F)
    (h : Params.fromJson env md json multipart_files = .ok p) :
    p.named_params.length = p.col_names.length ∧
    List.Forall₂ (fun (np : String × Value F) c => np.1 = ":" ++ c)
      p.named_params p.col_names ∧
    ∀ c ∈ p.file_col_names, c ∈ p.col_names := by
  have hinit : ParamsAligned
      ({ table_name := md.name, named_params := [], col_names := [],
         files := [], file_col_names := [] } : Params F) := by
    exact ⟨List.Forall₂.nil, fun c hc => absurd hc (by simp)⟩
  unfold Params.fromJson at h
  simp only at h
  cases hf : List.foldlM (processEntry env md)
      ({ table_name := md.name, named_params := [], col_names := [],
         files := [], file_col_names := [] } : Params F) json with
  | error e => rw [hf] at h; cases h
  | ok p1 =>
    rw [hf] at h
    have hp1 : ParamsAligned p1 := aligned_foldlM json _ p1 hinit hf
    have hq : ParamsAligned p := by
      cases multipart_files with
      | none =>
        simp only [Except.ok.injEq] at h
        subst h
        exact hp1
      | some fs => exact aligned_append_multipart hp1 h
    exact ⟨hq.1.length_eq, hq.1, hq.2⟩

/-- Closed instance of C9: the one-column build aligns `[(":a", _)]` with
`["a"]` and has no file columns. -/
theorem params_from_invariant_witness :
    wParamsA.named_params.length = wParamsA.col_names.length ∧
    List.Forall₂ (fun (np : String × Value Unit) c => np.1 = ":" ++ c)
      wParamsA.named_params wParamsA.col_names ∧
    ∀ c ∈ wParamsA.file_col_names, c ∈ wParamsA.col_names :=
  params_from_invariant wEnv wMdA [("a", .str "hi")] none wParamsA rfl

/-- C6: when any step of `SchemaMetadataCache::invalidate_all` fails
(introspection, metadata/trigger building, or view building), the stored
cache state is returned exactly as it was; the whole-state swap only
happens after every fallible step has succeeded. -/
theorem invalidate_all_error_preserves_state (env : SchemaDbEnv)
    (s : SchemaMetadataCacheState) (e : SchemaLookupError)
    (h : (invalidate_all env s).1 = .error e) :
    (invalidate_all env s).2 = s := by
  unfold invalidate_all at h ⊢
  cases h1 : env.lookup_all_table_schemas with
  | error e1 => simp [h1]
  | ok tables =>
    cases h2 : env.build_tables tables with
    | error e2 => simp [h1, h2]
    | ok table_map =>
      cases h3 : env.build_views tables with
      | error e3 => simp [h1, h2, h3]
      | ok views => simp [h1, h2, h3] at h

/-- Closed instance of C6: a failing introspection step leaves the
one-table cache state untouched. -/
theorem invalidate_all_error_preserves_state_witness :
    (invalidate_all wSchemaEnvFail wCacheState).2 = wCacheState :=
  invalidate_all_error_preserves_state wSchemaEnvFail wCacheState .Missing rfl

/-- C5: the column list of the INSERT…SELECT statement generated by
`alter_table_handler` holds exactly the column names occurring in both the
source and the target schema — source-only columns are dropped, target-only
columns are not selected (they fall back to their schema default / NULL). -/
theorem alter_copy_columns_are_intersection (req : AlterTableRequest)
    (c : String) :
    c ∈ (alter_copy_statement req).column_list ↔
      (c ∈ req.target_schema.columns.map Column.name ∧
       c ∈ req.source_schema.columns.map Column.name) := by
  unfold alter_copy_statement copy_columns
  simp only [List.mem_filterMap]
  constructor
  · rintro ⟨col, hcol, heq⟩
    by_cases hmem :
        (req.source_schema.columns.map Column.name).contains col.name
    · rw [if_pos hmem] at heq
      cases heq
      exact ⟨List.mem_map_of_mem Column.name hcol, List.elem_iff.mp hmem⟩
    · rw [if_neg hmem] at heq
      cases heq
  · rintro ⟨htgt, hsrc⟩
    obtain ⟨col, hcol, rfl⟩ := List.mem_map.mp htgt
    exact ⟨col, hcol, by rw [if_pos (List.elem_iff.mpr hsrc)]⟩

/-- C1: `DeleteQueryBuilder::run` on a primary-key value matching no row of
the table returns `QueryError::NotFound` instead of succeeding silently
(assuming the engine itself does not fail). -/
theorem delete_no_match_is_not_found {F : Type} [DecidableEq F]
    (env : QueryEnv) (tbl : DbTable F) (pk_value : Value F)
    (hsql : env.sqlFail = none)
    (hnone : ∀ r ∈ tbl.rows, r.pk ≠ pk_value) :
    (DeleteQueryBuilder.run env tbl pk_value).1 = .error .NotFound := by
  have hfilter : tbl.rows.filter (fun r => r.pk = pk_value) = [] := by
    rw [List.filter_eq_nil_iff]
    intro r hr
    simp [hnone r hr]
  simp [DeleteQueryBuilder.run, deleteReturningRowid, hsql, hfilter]

/-- Closed instance of C1: deleting from an empty table yields
`NotFound`. -/
theorem delete_no_match_is_not_found_witness :
    (DeleteQueryBuilder.run wQueryEnv (⟨[]⟩ : DbTable Unit)
      (.Integer 1)).1 = .error .NotFound :=
  delete_no_match_is_not_found wQueryEnv ⟨[]⟩ (.Integer 1) rfl
    (fun r hr => absurd hr (by simp))

/-- C10: `UpdateQueryBuilder::run` with a non-empty column set whose
primary-key value matches no row returns `Ok` — no `NotFound`, and no file
deletion is performed or scheduled (the only effects are the object-store
writes of the new file contents). -/
theorem update_no_match_is_silent_noop {F : Type} [DecidableEq F]
    (env : QueryEnv) (tbl : DbTable F) (params : Params F)
    (pk_column : String) (pk_value : Value F)
    (hne : params.col_names ≠ [])
    (hsql : env.sqlFail = none)
    (hwrites : ∀ f ∈ params.files, env.putObject f.1.path = .ok ())
    (hnone : ∀ r ∈ tbl.rows, r.pk ≠ pk_value) :
    (UpdateQueryBuilder.run env tbl params pk_column pk_value).1 = .ok () ∧
    ∀ e ∈ (UpdateQueryBuilder.run env tbl params pk_column pk_value).2,
      e.isDeletion = false := by
  have hfilter : tbl.rows.filter (fun r => r.pk = pk_value) = [] := by
    rw [List.filter_eq_nil_iff]
    intro r hr
    simp [hnone r hr]
  have hfiles : (params.push_param pk_column pk_value).files = params.files := rfl
  have hw := writeFiles_all_ok env params.files hwrites
  have hempty : params.col_names.isEmpty = false := by
    cases h : params.col_names with
    | nil => exact absurd h hne
    | cons a l => rfl
  have heff : (UpdateQueryBuilder.run env tbl params pk_column pk_value).2 =
      params.files.map (fun f => .writeObject f.1.path) := by
    simp [UpdateQueryBuilder.run, hempty, hfiles, hw, hsql, firstMatchRowid,
      hfilter]
  constructor
  · simp [UpdateQueryBuilder.run, hempty, hfiles, hw, hsql, firstMatchRowid,
      hfilter]
  · intro e he
    rw [heff] at he
    obtain ⟨f, _, rfl⟩ := List.mem_map.mp he
    rfl

/-- Closed instance of C10: updating a row absent from an empty table
succeeds with no deletion effects. -/
theorem update_no_match_is_silent_noop_witness :
    (UpdateQueryBuilder.run wQueryEnv (⟨[]⟩ : DbTable Unit) wParamsA "id"
      (.Integer 1)).1 = .ok () ∧
    ∀ e ∈ (UpdateQueryBuilder.run wQueryEnv (⟨[]⟩ : DbTable Unit) wParamsA
      "id" (.Integer 1)).2, e.isDeletion = false :=
  update_no_match_is_silent_noop wQueryEnv ⟨[]⟩ wParamsA "id" (.Integer 1)
    (by simp [wParamsA]) rfl (fun f hf => absurd hf (by simp [wParamsA]))
    (fun r hr => absurd hr (by simp))

end Trailbase
